import Mathlib

/-!
Shallow embedding of `src/gov_uk_mcp/rate_limiter.py` (token-bucket rate
limiter).  Python floats are modelled as exact rationals (`ℚ`); wall-clock
time (`time.time()`) is passed explicitly as a `now : ℚ` parameter.  The
several `time.time()` calls inside one Python method body are modelled as
the same instant `now` (they are intended to be the same observation point;
the claims under study are stated at a single instant).  Mutation of a
bucket or of the limiter's bucket dictionary is modelled by returning the
new state.  Thread locks have no effect in this sequential model and are
omitted.
-/

namespace GovUkMcp

/-- Dataclass `TokenBucket`: capacity, current tokens, refill rate
(tokens per second) and the timestamp of the last refill.  The
`threading.Lock` field is omitted (no concurrency in this model). -/
structure TokenBucket where
  capacity : ℚ
  tokens : ℚ
  rate : ℚ
  last_refill : ℚ
deriving Repr, DecidableEq

namespace TokenBucket

/-- Method `TokenBucket._refill`: `elapsed = now - last_refill`;
`tokens = min(capacity, tokens + elapsed * rate)`; `last_refill = now`.
The Python code applies `elapsed * rate` unconditionally — there is no
clamp of a negative `elapsed` to zero. -/
def refill (b : TokenBucket) (now : ℚ) : TokenBucket :=
  let elapsed := now - b.last_refill
  let new_tokens := elapsed * b.rate
  { b with tokens := min b.capacity (b.tokens + new_tokens), last_refill := now }

/-- Method `TokenBucket.consume(tokens)`: refill, then grant iff
`self.tokens >= tokens`.  Returns `((success, remaining, reset_time), new bucket state)`. -/
def consume (b : TokenBucket) (tokens : ℚ) (now : ℚ) : (Bool × ℚ × ℚ) × TokenBucket :=
  let b' := b.refill now
  if b'.tokens ≥ tokens then
    let b'' := { b' with tokens := b'.tokens - tokens }
    let time_to_full := (b''.capacity - b''.tokens) / b''.rate
    ((true, b''.tokens, now + time_to_full), b'')
  else
    let tokens_needed := tokens - b'.tokens
    let wait_time := tokens_needed / b'.rate
    ((false, b'.tokens, now + wait_time), b')

/-- Method `TokenBucket.peek()`: refill, then report `(tokens, reset_time)`
without consuming.  Returns `((available, reset_time), new bucket state)`. -/
def peek (b : TokenBucket) (now : ℚ) : (ℚ × ℚ) × TokenBucket :=
  let b' := b.refill now
  let time_to_full := (b'.capacity - b'.tokens) / b'.rate
  ((b'.tokens, now + time_to_full), b')

end TokenBucket

/-- The limiter's bucket storage `self._buckets : Dict[str, TokenBucket]`,
modelled as an association list with unique-key update semantics. -/
abbrev BucketMap := List (String × TokenBucket)

/-- Dictionary lookup `m[endpoint]` / `endpoint in m`. -/
def lookupBucket : BucketMap → String → Option TokenBucket
  | [], _ => none
  | (k, b) :: rest, e => if k = e then some b else lookupBucket rest e

/-- Membership test `endpoint in self._buckets`. -/
def containsBucket (m : BucketMap) (e : String) : Bool :=
  (lookupBucket m e).isSome

/-- Dictionary store `m[endpoint] = b` (replace if present, else append). -/
def storeBucket : BucketMap → String → TokenBucket → BucketMap
  | [], e, b => [(e, b)]
  | (k, b0) :: rest, e, b =>
      if k = e then (k, b) :: rest else (k, b0) :: storeBucket rest e b

/-- Table access `RateLimiter.DEFAULT_LIMITS.get(endpoint, DEFAULT_LIMITS["default"])`:
the static per-endpoint requests-per-minute table with its fallback. -/
def DEFAULT_LIMITS (e : String) : ℤ :=
  if e = "mot_api" then 120
  else if e = "companies_house" then 120
  else if e = "tfl" then 500
  else 60

/-- Method `RateLimiter._get_bucket(endpoint, requests_per_minute)`: look up the
endpoint's bucket; if absent, resolve the per-minute rate (argument or
default table), convert to per-second rate, and create a bucket that
starts full.  No validation of the rate happens anywhere.  Returns
`(bucket, new map)`. -/
def getBucket (m : BucketMap) (e : String) (requests_per_minute : Option ℤ)
    (now : ℚ) : TokenBucket × BucketMap :=
  match lookupBucket m e with
  | some b => (b, m)
  | none =>
      let rpm := requests_per_minute.getD (DEFAULT_LIMITS e)
      let rate : ℚ := (rpm : ℚ) / 60
      let b : TokenBucket :=
        { capacity := (rpm : ℚ), tokens := (rpm : ℚ), rate := rate,
          last_refill := now }
      (b, storeBucket m e b)

/-- Python `int()` applied to a float: truncation toward zero. -/
def truncInt (q : ℚ) : ℤ := if q < 0 then ⌈q⌉ else ⌊q⌋

/-- The `info` dictionary built by `RateLimiter.check_limit`.  The code
formats `reset_time` as an ISO-8601 string via
`datetime.fromtimestamp(reset_time).isoformat()`; we keep the underlying
timestamp.  `retry_after` is present only on denial. -/
structure LimitInfo where
  remaining : ℤ
  reset_time : ℚ
  limit : ℤ
  retry_after : Option ℤ
deriving Repr, DecidableEq

/-- Method `RateLimiter.check_limit(endpoint, requests_per_minute, tokens)`:
get-or-create the bucket, consume, and build the info dictionary.
Returns `((allowed, info), new map)`; the consumed bucket state is
written back (in Python the dict holds the mutated object). -/
def checkLimit (m : BucketMap) (e : String) (requests_per_minute : Option ℤ)
    (tokens : ℚ) (now : ℚ) : (Bool × LimitInfo) × BucketMap :=
  let gb := getBucket m e requests_per_minute now
  let bucket := gb.1
  let r := bucket.consume tokens now
  let success := r.1.1
  let remaining := r.1.2.1
  let reset_time := r.1.2.2
  let info : LimitInfo :=
    { remaining := truncInt remaining,
      reset_time := reset_time,
      limit := truncInt bucket.capacity,
      retry_after := if success then none else some (truncInt (reset_time - now) + 1) }
  ((success, info), storeBucket gb.2 e r.2)

/-- Set a bucket to full: `bucket.tokens = bucket.capacity;
bucket.last_refill = time.time()` (the body of both branches of
`RateLimiter.reset`). -/
def refillFull (b : TokenBucket) (now : ℚ) : TokenBucket :=
  { b with tokens := b.capacity, last_refill := now }

/-- Method `RateLimiter.reset(endpoint)`.  Python's `if endpoint:` is a
truthiness test: it takes the single-endpoint branch only when the
argument is neither `None` nor the empty string `""`; for `None` or `""`
every bucket in the map is refilled to full. -/
def reset (m : BucketMap) (endpoint : Option String) (now : ℚ) : BucketMap :=
  match endpoint with
  | some e =>
      if e ≠ "" then
        match lookupBucket m e with
        | some b => storeBucket m e (refillFull b now)
        | none => m
      else m.map (fun p => (p.1, refillFull p.2 now))
  | none => m.map (fun p => (p.1, refillFull p.2 now))

/-! ### The `rate_limit` decorator

The wrapped tool function returns an arbitrary Python value; the wrapper
inspects it only through `isinstance(result, dict)` and key membership.
We model the relevant value universe: strings, ints, floats (`ℚ`) and
string-keyed dictionaries. -/

/-- Python values as seen by the `rate_limit` wrapper. -/
inductive RVal where
  | str (s : String)
  | int (n : ℤ)
  | rat (q : ℚ)
  | dict (d : List (String × RVal))

/-- Dictionary lookup `d[k]` / `k in d`. -/
def lookupR : List (String × RVal) → String → Option RVal
  | [], _ => none
  | (k0, v0) :: rest, k => if k0 = k then some v0 else lookupR rest k

/-- Dictionary store `d[k] = v` (replace if present, else append). -/
def setKey : List (String × RVal) → String → RVal → List (String × RVal)
  | [], k, v => [(k, v)]
  | (k0, v0) :: rest, k, v =>
      if k0 = k then (k0, v) :: rest else (k0, v0) :: setKey rest k v

/-- Test `isinstance(result, dict)`. -/
def isDict : RVal → Bool
  | .dict _ => true
  | _ => false

/-- Lookup a key on a value known to be a dictionary (observation
helper for stating properties of wrapper results). -/
def dictLookup : RVal → String → Option RVal
  | .dict d, k => lookupR d k
  | _, _ => none

/-- The body of the `wrapper` closure produced by `rate_limit(endpoint,
requests_per_minute)`: check the limit; on denial return the structured
error dictionary without invoking the wrapped function; on approval
invoke it and, if its result is a dict without an `"error"` key, attach
the `"rate_limit"` metadata block.  The wrapped function is modelled by
the value `fres` it would return; the returned `Bool` records whether it
was invoked.  Result: `((returned value, invoked), new bucket map)`. -/
def wrapperCall (m : BucketMap) (e : String) (requests_per_minute : Option ℤ)
    (now : ℚ) (fres : RVal) : (RVal × Bool) × BucketMap :=
  match checkLimit m e requests_per_minute 1 now with
  | ((allowed, info), m') =>
    if allowed then
      let result :=
        match fres with
        | .dict d =>
            if (lookupR d "error").isNone then
              RVal.dict (setKey d "rate_limit" (.dict
                [("remaining", .int info.remaining),
                 ("limit", .int info.limit),
                 ("reset_time", .rat info.reset_time)]))
            else .dict d
        | v => v
      ((result, true), m')
    else
      let retry_after := info.retry_after.getD 60
      ((.dict
        [("error", .str ("Rate limit exceeded for " ++ e)),
         ("error_type", .str "rate_limit_exceeded"),
         ("retry_after", .int retry_after),
         ("reset_time", .rat info.reset_time),
         ("limit", .int info.limit),
         ("message", .str ("Please retry after " ++ toString retry_after ++ " seconds"))],
        false), m')

/-! ### Operation sequences on a single bucket (for the capacity-bound
invariant) -/

/-- An operation applied to a single bucket: `consume(cost)`, `peek()`,
or the per-bucket body of `reset`. -/
inductive BucketOp where
  | consumeOp (cost : ℚ)
  | peekOp
  | resetOp

/-- Apply one operation to a bucket at time `now`, keeping the new state. -/
def applyOp (b : TokenBucket) (now : ℚ) : BucketOp → TokenBucket
  | .consumeOp cost => (b.consume cost now).2
  | .peekOp => (b.peek now).2
  | .resetOp => refillFull b now

/-- Run a timed sequence of operations on a bucket. -/
def runOps (b : TokenBucket) : List (ℚ × BucketOp) → TokenBucket
  | [] => b
  | (now, op) :: rest => runOps (applyOp b now op) rest

/-- A consume operation has non-negative cost (peek and reset always
qualify). -/
def costOk : BucketOp → Bool
  | .consumeOp c => (0:ℚ) ≤ c
  | .peekOp => true
  | .resetOp => true

/-- A timed sequence is valid from time `t` when observation times are
nondecreasing (non-negative elapsed time, starting no earlier than `t`)
and every consume has non-negative cost. -/
def validOps (t : ℚ) : List (ℚ × BucketOp) → Bool
  | [] => true
  | (now, op) :: rest => t ≤ now && costOk op && validOps now rest

/-- Iterate `consume(1.0)` at a fixed instant `now`, keeping bucket state. -/
def consumeIter (b : TokenBucket) (now : ℚ) : ℕ → TokenBucket
  | 0 => b
  | n + 1 => ((consumeIter b now n).consume 1 now).2

/-- A fresh bucket of capacity 10 with rate 10 tokens per minute
(10/60 tokens per second), created at time 0. -/
def freshTen : TokenBucket :=
  { capacity := 10, tokens := 10, rate := 10 / 60, last_refill := 0 }

/-- A bucket observed after a backwards clock step: `last_refill = 10`
but `now = 5` (capacity 10, tokens 5, rate 1). -/
def clockBackBucket : TokenBucket :=
  { capacity := 10, tokens := 5, rate := 1, last_refill := 10 }

/-- The bucket state invariant claimed by the spec. -/
def Inv (b : TokenBucket) : Prop := 0 ≤ b.tokens ∧ b.tokens ≤ b.capacity

end GovUkMcp

namespace GovUkMcp

/-- Equation form of `_refill` on a literal bucket. -/
lemma refill_closed (c t r lr now : ℚ) :
    TokenBucket.refill ⟨c, t, r, lr⟩ now = ⟨c, min c (t + (now - lr) * r), r, now⟩ :=
  rfl

/-- Equation form of `consume` on a granting input. -/
lemma consume_grant_closed (c t r lr a now : ℚ)
    (h : min c (t + (now - lr) * r) ≥ a) :
    TokenBucket.consume ⟨c, t, r, lr⟩ a now =
      ((true, min c (t + (now - lr) * r) - a,
        now + (c - (min c (t + (now - lr) * r) - a)) / r),
       ⟨c, min c (t + (now - lr) * r) - a, r, now⟩) := by
  simp only [TokenBucket.consume, TokenBucket.refill]
  rw [if_pos h]

/-- Equation form of `consume` on a denying input. -/
lemma consume_deny_closed (c t r lr a now : ℚ)
    (h : ¬ min c (t + (now - lr) * r) ≥ a) :
    TokenBucket.consume ⟨c, t, r, lr⟩ a now =
      ((false, min c (t + (now - lr) * r),
        now + (a - min c (t + (now - lr) * r)) / r),
       ⟨c, min c (t + (now - lr) * r), r, now⟩) := by
  simp only [TokenBucket.consume, TokenBucket.refill]
  rw [if_neg h]

/-- Closed form of `k ≤ 10` successive cost-1 consumes at instant 0 on
the fresh capacity-10 bucket: exactly `k` tokens are gone. -/
lemma consumeIter_freshTen : ∀ k : ℕ, k ≤ 10 →
    consumeIter freshTen 0 k = ⟨10, 10 - (k : ℚ), 10 / 60, 0⟩
  | 0, _ => by norm_num [consumeIter, freshTen]
  | (n + 1), h => by
      have hn : (n : ℚ) ≤ 9 := by exact_mod_cast Nat.lt_succ_iff.mp h
      have h0 : (0 : ℚ) ≤ (n : ℚ) := Nat.cast_nonneg n
      have hmin : min (10 : ℚ) (10 - (n : ℚ) + (0 - 0) * (10 / 60)) = 10 - (n : ℚ) := by
        rw [sub_self, zero_mul, add_zero]
        exact min_eq_right (by linarith)
      rw [consumeIter, consumeIter_freshTen n (Nat.le_of_succ_le h),
        consume_grant_closed _ _ _ _ _ _ (by rw [hmin]; linarith)]
      simp only [hmin]
      congr 1
      push_cast
      ring

/-- C1: `consume(a)` refills first and grants iff the refilled token
count `t'` satisfies `t' ≥ a`; on a grant it returns
`(true, t' - a, now + (capacity - (t' - a)) / rate)` and the bucket's
tokens become `t' - a`; on a denial the tokens stay at `t'` and it
returns `(false, t', now + (a - t') / rate)`.  In particular a fresh
bucket of capacity 10 (rate 10/min) grants ten successive cost-1
consumes at a single instant and denies the eleventh with
remaining = 0 (and reset time 6 seconds away). -/
theorem consume_spec (b : TokenBucket) (a now : ℚ)
    (hc : 0 < b.capacity) (hr : 0 < b.rate) :
    (b.consume a now =
      if (b.refill now).tokens ≥ a then
        ((true, (b.refill now).tokens - a,
          now + (b.capacity - ((b.refill now).tokens - a)) / b.rate),
         { b.refill now with tokens := (b.refill now).tokens - a })
      else
        ((false, (b.refill now).tokens,
          now + (a - (b.refill now).tokens) / b.rate),
         b.refill now))
    ∧ (∀ k < 10, ((consumeIter freshTen 0 k).consume 1 0).1.1 = true)
    ∧ ((consumeIter freshTen 0 10).consume 1 0).1 = (false, 0, 6) := by
  refine ⟨rfl, ?_, ?_⟩
  · intro k hk
    have hk9 : (k : ℚ) ≤ 9 := by exact_mod_cast Nat.lt_succ_iff.mp hk
    have h0 : (0 : ℚ) ≤ (k : ℚ) := Nat.cast_nonneg k
    rw [consumeIter_freshTen k (Nat.le_of_lt hk),
      consume_grant_closed _ _ _ _ _ _ (by
        rw [sub_self, zero_mul, add_zero]
        rw [min_eq_right (by linarith)]
        linarith)]
  · rw [consumeIter_freshTen 10 le_rfl]
    rw [consume_deny_closed _ _ _ _ _ _ (by norm_num)]
    norm_num

/-- Witness for `consume_spec` at a concrete bucket and cost. -/
theorem consume_spec_witness :
    ((0:ℚ) < freshTen.capacity ∧ (0:ℚ) < freshTen.rate) ∧
    (freshTen.consume 3 0 =
      if (freshTen.refill 0).tokens ≥ 3 then
        ((true, (freshTen.refill 0).tokens - 3,
          0 + (freshTen.capacity - ((freshTen.refill 0).tokens - 3)) / freshTen.rate),
         { freshTen.refill 0 with tokens := (freshTen.refill 0).tokens - 3 })
      else
        ((false, (freshTen.refill 0).tokens,
          0 + (3 - (freshTen.refill 0).tokens) / freshTen.rate),
         freshTen.refill 0))
    ∧ (∀ k < 10, ((consumeIter freshTen 0 k).consume 1 0).1.1 = true)
    ∧ ((consumeIter freshTen 0 10).consume 1 0).1 = (false, 0, 6) := by
  have hc : (0:ℚ) < freshTen.capacity := by norm_num [freshTen]
  have hr : (0:ℚ) < freshTen.rate := by norm_num [freshTen]
  exact ⟨⟨hc, hr⟩, consume_spec freshTen 3 0 hc hr⟩

/-- C3 counterexample: with a backwards clock step (`now = 5` while
`last_refill = 10`, so elapsed = −5), `_refill` multiplies the negative
elapsed by the rate and the token count drops from 5 to 0 — the claimed
clamp of negative elapsed to 0 does not exist in the code. -/
theorem refill_negative_elapsed_cex :
    (clockBackBucket.refill 5).tokens = 0 ∧
    (clockBackBucket.refill 5).tokens < clockBackBucket.tokens := by
  constructor
  · show min (10:ℚ) (5 + (5 - 10) * 1) = 0
    norm_num
  · show min (10:ℚ) (5 + (5 - 10) * 1) < 5
    norm_num

/-- C3 amended: `_refill` computes
`tokens = min(capacity, tokens + (now - last_refill) * rate)`
unconditionally — a negative elapsed is *not* treated as 0, so a
backwards clock step removes `|elapsed| * rate` tokens.  The refill is
guaranteed not to decrease the token count only when the elapsed time is
non-negative (given `rate ≥ 0` and `tokens ≤ capacity`). -/
theorem refill_spec_amended (b : TokenBucket) (now : ℚ) :
    ((b.refill now).tokens = min b.capacity (b.tokens + (now - b.last_refill) * b.rate))
    ∧ (b.last_refill ≤ now → 0 ≤ b.rate → b.tokens ≤ b.capacity →
        b.tokens ≤ (b.refill now).tokens) := by
  refine ⟨rfl, fun h1 h2 h3 => ?_⟩
  have hmul : 0 ≤ (now - b.last_refill) * b.rate :=
    mul_nonneg (by linarith) h2
  show b.tokens ≤ min b.capacity (b.tokens + (now - b.last_refill) * b.rate)
  exact le_min h3 (by linarith)

/-- Witness for `refill_spec_amended` at a concrete bucket. -/
theorem refill_spec_amended_witness :
    ((⟨10, 3, 2, 0⟩ : TokenBucket).last_refill ≤ 1 ∧ (0:ℚ) ≤ (⟨10, 3, 2, 0⟩ : TokenBucket).rate
      ∧ (⟨10, 3, 2, 0⟩ : TokenBucket).tokens ≤ (⟨10, 3, 2, 0⟩ : TokenBucket).capacity) ∧
    (⟨10, 3, 2, 0⟩ : TokenBucket).tokens ≤ ((⟨10, 3, 2, 0⟩ : TokenBucket).refill 1).tokens :=
  ⟨⟨by norm_num, by norm_num, by norm_num⟩,
   (refill_spec_amended ⟨10, 3, 2, 0⟩ 1).2 (by norm_num) (by norm_num) (by norm_num)⟩

/-- Lemma: `_refill` preserves the invariant when the elapsed time is
non-negative, and fixes `last_refill` to `now` while leaving capacity
and rate untouched. -/
lemma refill_inv (b : TokenBucket) (now : ℚ) (h : Inv b) (hr : 0 ≤ b.rate)
    (hnow : b.last_refill ≤ now) :
    Inv (b.refill now) ∧ (b.refill now).capacity = b.capacity ∧
      (b.refill now).rate = b.rate ∧ (b.refill now).last_refill = now := by
  obtain ⟨h0, hcap⟩ := h
  have hmul : 0 ≤ (now - b.last_refill) * b.rate :=
    mul_nonneg (by linarith) hr
  refine ⟨⟨?_, ?_⟩, rfl, rfl, rfl⟩
  · show 0 ≤ min b.capacity (b.tokens + (now - b.last_refill) * b.rate)
    exact le_min (le_trans h0 hcap) (by linarith)
  · show min b.capacity (b.tokens + (now - b.last_refill) * b.rate) ≤ b.capacity
    exact min_le_left _ _

/-- Each of `consume` (with non-negative cost), `peek` and the
per-bucket reset body preserves the invariant, does not change capacity
or rate, and leaves `last_refill = now`. -/
lemma applyOp_inv (b : TokenBucket) (now : ℚ) (op : BucketOp)
    (h : Inv b) (hr : 0 ≤ b.rate) (hnow : b.last_refill ≤ now)
    (hop : costOk op = true) :
    Inv (applyOp b now op) ∧ (applyOp b now op).capacity = b.capacity ∧
      (applyOp b now op).rate = b.rate ∧ (applyOp b now op).last_refill = now := by
  obtain ⟨hri, hrc, hrr, hrl⟩ := refill_inv b now h hr hnow
  cases op with
  | consumeOp cost =>
      have hcost : (0:ℚ) ≤ cost := by simpa [costOk] using hop
      simp only [applyOp, TokenBucket.consume, Inv]
      by_cases hg : (b.refill now).tokens ≥ cost
      · rw [if_pos hg]
        refine ⟨⟨sub_nonneg.mpr hg, ?_⟩, hrc, hrr, hrl⟩
        show (b.refill now).tokens - cost ≤ (b.refill now).capacity
        have h2 := hri.2
        linarith
      · rw [if_neg hg]
        exact ⟨hri, hrc, hrr, hrl⟩
  | peekOp =>
      simp only [applyOp, TokenBucket.peek]
      exact ⟨hri, hrc, hrr, hrl⟩
  | resetOp =>
      refine ⟨⟨?_, le_rfl⟩, rfl, rfl, rfl⟩
      exact le_trans h.1 h.2

/-- Running any valid timed sequence preserves the invariant and never
changes capacity or rate. -/
lemma runOps_inv : ∀ (ops : List (ℚ × BucketOp)) (b : TokenBucket),
    Inv b → 0 ≤ b.rate → validOps b.last_refill ops = true →
    Inv (runOps b ops) ∧ (runOps b ops).capacity = b.capacity ∧
      (runOps b ops).rate = b.rate
  | [], b, h, _, _ => ⟨h, rfl, rfl⟩
  | (now, op) :: rest, b, h, hr, hv => by
      simp only [validOps, Bool.and_eq_true, decide_eq_true_eq] at hv
      obtain ⟨⟨hnow, hop⟩, hrest⟩ := hv
      obtain ⟨h1, hc1, hr1, hl1⟩ := applyOp_inv b now op h hr hnow hop
      have := runOps_inv rest (applyOp b now op) h1 (by rw [hr1]; exact hr)
        (by rw [hl1]; exact hrest)
      rw [runOps]
      exact ⟨this.1, this.2.1.trans hc1, this.2.2.trans hr1⟩

/-- C2: a bucket created with capacity `c > 0` and rate `r > 0`
(starting full) satisfies `0 ≤ tokens ≤ capacity` after every valid
timed sequence of consume / peek / reset operations — observation times
nondecreasing (non-negative elapsed, arbitrarily long idle gaps allowed)
and consume costs non-negative.  Quantifying over all sequences covers
every intermediate observation point (each is the end of a prefix). -/
theorem bucket_capacity_bound (c r t0 : ℚ) (ops : List (ℚ × BucketOp))
    (hc : 0 < c) (hr : 0 < r) (hops : validOps t0 ops = true) :
    0 ≤ (runOps ⟨c, c, r, t0⟩ ops).tokens ∧
      (runOps ⟨c, c, r, t0⟩ ops).tokens ≤ (runOps ⟨c, c, r, t0⟩ ops).capacity := by
  have := runOps_inv ops ⟨c, c, r, t0⟩ ⟨le_of_lt hc, le_rfl⟩ (le_of_lt hr) hops
  exact this.1

/-- Witness for `bucket_capacity_bound` on a concrete four-step run. -/
theorem bucket_capacity_bound_witness :
    ((0:ℚ) < 10 ∧ (0:ℚ) < 2 ∧
      validOps 0 [(1, .consumeOp 1), (3, .peekOp), (50, .consumeOp 2), (50, .resetOp)] = true) ∧
    (0 ≤ (runOps ⟨10, 10, 2, 0⟩
        [(1, .consumeOp 1), (3, .peekOp), (50, .consumeOp 2), (50, .resetOp)]).tokens ∧
      (runOps ⟨10, 10, 2, 0⟩
        [(1, .consumeOp 1), (3, .peekOp), (50, .consumeOp 2), (50, .resetOp)]).tokens ≤
      (runOps ⟨10, 10, 2, 0⟩
        [(1, .consumeOp 1), (3, .peekOp), (50, .consumeOp 2), (50, .resetOp)]).capacity) := by
  have hv : validOps 0 [(1, .consumeOp 1), (3, .peekOp), (50, .consumeOp 2), (50, .resetOp)]
      = true := by norm_num [validOps, costOk]
  exact ⟨⟨by norm_num, by norm_num, hv⟩,
    bucket_capacity_bound 10 2 0 _ (by norm_num) (by norm_num) hv⟩

/-- C9: two consecutive `peek()` calls at the same instant with no
intervening consume return identical `(available, reset_time)` values —
the second refill adds `0 * rate` tokens and the `min` with capacity is
idempotent, so there is no double-refill drift. -/
theorem peek_idempotent (b : TokenBucket) (now : ℚ) :
    (((b.peek now).2).peek now).1 = (b.peek now).1 := by
  simp only [TokenBucket.peek, TokenBucket.refill]
  rw [sub_self, zero_mul, add_zero, min_eq_right (min_le_left _ _)]

/-- C4 counterexample: `_get_bucket` performs no validation.  Calling it
with `requests_per_minute = 0` for a fresh endpoint creates and stores a
bucket with capacity 0, tokens 0 and rate 0 — so a bucket with
non-positive rate and capacity does exist, and nothing was rejected
before its creation. -/
theorem getBucket_no_validation_cex :
    lookupBucket (getBucket [] "x" (some 0) 0).2 "x" = some ⟨0, 0, 0, 0⟩ ∧
    (getBucket [] "x" (some 0) 0).1.rate ≤ 0 ∧
    (getBucket [] "x" (some 0) 0).1.capacity ≤ 0 := by
  refine ⟨?_, ?_, ?_⟩ <;>
    simp [getBucket, lookupBucket, storeBucket]

/-- C4 amended: first-time bucket creation performs no validation at
all: for every integer `requests_per_minute = n` — including `n ≤ 0` —
`_get_bucket` on an absent endpoint creates and stores the bucket
`⟨n, n, n / 60, now⟩` and returns it; no configuration is ever rejected,
so a bucket with non-positive rate and capacity can exist (and the
division by `rate` in `consume`/`peek` is reached with `rate = 0`, which
in Python raises `ZeroDivisionError` at first use, not at construction). -/
theorem getBucket_creates_unvalidated (m : BucketMap) (e : String) (n : ℤ)
    (now : ℚ) (habs : lookupBucket m e = none) :
    getBucket m e (some n) now =
      (⟨(n : ℚ), (n : ℚ), (n : ℚ) / 60, now⟩,
       storeBucket m e ⟨(n : ℚ), (n : ℚ), (n : ℚ) / 60, now⟩) := by
  simp [getBucket, habs]

/-- Witness for `getBucket_creates_unvalidated` with a negative rate. -/
theorem getBucket_creates_unvalidated_witness :
    lookupBucket [] "epc" = none ∧
    getBucket [] "epc" (some (-5)) 2 =
      (⟨((-5 : ℤ) : ℚ), ((-5 : ℤ) : ℚ), ((-5 : ℤ) : ℚ) / 60, 2⟩,
       storeBucket [] "epc" ⟨((-5 : ℤ) : ℚ), ((-5 : ℤ) : ℚ), ((-5 : ℤ) : ℚ) / 60, 2⟩) :=
  ⟨rfl, getBucket_creates_unvalidated [] "epc" (-5) 2 rfl⟩

/-- C5: a bucket's capacity and rate are fixed by the call that creates
it: whenever the endpoint is already present, `_get_bucket` returns the
stored bucket and leaves the map unchanged, whatever
`requests_per_minute` is passed.  Concretely, `check_limit("X", 10)`
followed by `check_limit("X", 9999)` leaves endpoint X governed by a
bucket of capacity 10. -/
theorem first_writer_wins (m : BucketMap) (e : String) (rpm : Option ℤ)
    (now : ℚ) (b : TokenBucket) (hb : lookupBucket m e = some b) :
    getBucket m e rpm now = (b, m) ∧
    (lookupBucket
        (checkLimit ((checkLimit [] "X" (some 10) 1 0).2) "X" (some 9999) 1 0).2
        "X").map TokenBucket.capacity = some 10 := by
  constructor
  · simp [getBucket, hb]
  · norm_num [checkLimit, getBucket, lookupBucket, storeBucket,
      TokenBucket.consume, TokenBucket.refill]

/-- Witness for `first_writer_wins` on a concrete one-entry map. -/
theorem first_writer_wins_witness :
    lookupBucket [("A", freshTen)] "A" = some freshTen ∧
    (getBucket [("A", freshTen)] "A" (some 9999) 3 = (freshTen, [("A", freshTen)]) ∧
      (lookupBucket
          (checkLimit ((checkLimit [] "X" (some 10) 1 0).2) "X" (some 9999) 1 0).2
          "X").map TokenBucket.capacity = some 10) :=
  ⟨rfl, first_writer_wins [("A", freshTen)] "A" (some 9999) 3 freshTen rfl⟩

/-- C6: `check_limit` returns `retry_after` only on denial, and then it
is the integer truncation of `reset_time - now` plus one, which is
always ≥ 1 (given the bucket's positive rate); in both outcomes the
info carries `remaining` = integer-truncated remaining tokens and
`limit` = integer-truncated bucket capacity. -/
theorem checkLimit_info_spec (m : BucketMap) (e : String) (rpm : Option ℤ)
    (cost now : ℚ) (hr : 0 < ((getBucket m e rpm now).1).rate) :
    ((checkLimit m e rpm cost now).1.1 = true →
      (checkLimit m e rpm cost now).1.2.retry_after = none) ∧
    ((checkLimit m e rpm cost now).1.1 = false →
      (checkLimit m e rpm cost now).1.2.retry_after =
        some (truncInt ((checkLimit m e rpm cost now).1.2.reset_time - now) + 1) ∧
      (∀ k : ℤ, (checkLimit m e rpm cost now).1.2.retry_after = some k → 1 ≤ k)) ∧
    (checkLimit m e rpm cost now).1.2.remaining =
      truncInt (((getBucket m e rpm now).1).consume cost now).1.2.1 ∧
    (checkLimit m e rpm cost now).1.2.limit =
      truncInt ((getBucket m e rpm now).1).capacity := by
  generalize hB : (getBucket m e rpm now).1 = B at *
  obtain ⟨c, t, r, lr⟩ := B
  simp only at hr
  by_cases hg : min c (t + (now - lr) * r) ≥ cost
  · have hC := consume_grant_closed c t r lr cost now hg
    refine ⟨fun _ => ?_, fun hfalse => ?_, ?_, ?_⟩
    · simp [checkLimit, hB, hC]
    · simp [checkLimit, hB, hC] at hfalse
    · simp [checkLimit, hB, hC]
    · simp [checkLimit, hB, hC]
  · have hC := consume_deny_closed c t r lr cost now hg
    have hlt : min c (t + (now - lr) * r) < cost := lt_of_not_le hg
    have hwait : 0 < (cost - min c (t + (now - lr) * r)) / r :=
      div_pos (by linarith) hr
    refine ⟨fun htrue => ?_, fun _ => ⟨?_, ?_⟩, ?_, ?_⟩
    · simp [checkLimit, hB, hC] at htrue
    · simp [checkLimit, hB, hC]
    · intro k hk
      have hk' : k = truncInt ((cost - min c (t + (now - lr) * r)) / r) + 1 := by
        have harg : now + (cost - min c (t + (now - lr) * r)) / r - now =
            (cost - min c (t + (now - lr) * r)) / r := by ring
        simp only [checkLimit, hB, hC, Bool.false_eq_true, if_false, harg,
          Option.some.injEq] at hk
        omega
      have hfl : (0 : ℤ) ≤ ⌊(cost - min c (t + (now - lr) * r)) / r⌋ := by
        apply Int.le_floor.mpr
        push_cast
        linarith
      rw [hk', truncInt, if_neg (by linarith)]
      omega
    · simp [checkLimit, hB, hC]
    · simp [checkLimit, hB, hC]

/-- Witness for `checkLimit_info_spec` on an exhausted bucket (denial
with `retry_after = 2`). -/
theorem checkLimit_info_spec_witness :
    (0 : ℚ) < ((getBucket [("x", ⟨10, 0, 1, 0⟩)] "x" none 0).1).rate ∧
    (((checkLimit [("x", ⟨10, 0, 1, 0⟩)] "x" none 1 0).1.1 = true →
      (checkLimit [("x", ⟨10, 0, 1, 0⟩)] "x" none 1 0).1.2.retry_after = none) ∧
    ((checkLimit [("x", ⟨10, 0, 1, 0⟩)] "x" none 1 0).1.1 = false →
      (checkLimit [("x", ⟨10, 0, 1, 0⟩)] "x" none 1 0).1.2.retry_after =
        some (truncInt ((checkLimit [("x", ⟨10, 0, 1, 0⟩)] "x" none 1 0).1.2.reset_time - 0) + 1) ∧
      (∀ k : ℤ, (checkLimit [("x", ⟨10, 0, 1, 0⟩)] "x" none 1 0).1.2.retry_after = some k →
        1 ≤ k)) ∧
    (checkLimit [("x", ⟨10, 0, 1, 0⟩)] "x" none 1 0).1.2.remaining =
      truncInt (((getBucket [("x", ⟨10, 0, 1, 0⟩)] "x" none 0).1).consume 1 0).1.2.1 ∧
    (checkLimit [("x", ⟨10, 0, 1, 0⟩)] "x" none 1 0).1.2.limit =
      truncInt ((getBucket [("x", ⟨10, 0, 1, 0⟩)] "x" none 0).1).capacity) := by
  have hr : (0 : ℚ) < ((getBucket [("x", ⟨10, 0, 1, 0⟩)] "x" none 0).1).rate := by
    norm_num [getBucket, lookupBucket]
  exact ⟨hr, checkLimit_info_spec [("x", ⟨10, 0, 1, 0⟩)] "x" none 1 0 hr⟩

/-- C7: when `check_limit` denies, the wrapper does not invoke the
wrapped function and returns a structured denial dictionary with
`error_type = "rate_limit_exceeded"`, `retry_after`, `reset_time`,
`limit` and a human-readable `message`; when it allows, the wrapped
function is invoked and the `rate_limit` metadata block
(`remaining`, `limit`, `reset_time` from the pre-call info) is attached
exactly when the result is a dict without an `"error"` key — an error
dict or a non-dict result is returned unchanged. -/
theorem wrapper_contract (m : BucketMap) (e : String) (rpm : Option ℤ)
    (now : ℚ) (fres : RVal) :
    ((checkLimit m e rpm 1 now).1.1 = false →
      (wrapperCall m e rpm now fres).1.2 = false ∧
      isDict (wrapperCall m e rpm now fres).1.1 = true ∧
      dictLookup (wrapperCall m e rpm now fres).1.1 "error_type" =
        some (.str "rate_limit_exceeded") ∧
      dictLookup (wrapperCall m e rpm now fres).1.1 "retry_after" =
        some (.int ((checkLimit m e rpm 1 now).1.2.retry_after.getD 60)) ∧
      dictLookup (wrapperCall m e rpm now fres).1.1 "reset_time" =
        some (.rat (checkLimit m e rpm 1 now).1.2.reset_time) ∧
      dictLookup (wrapperCall m e rpm now fres).1.1 "limit" =
        some (.int (checkLimit m e rpm 1 now).1.2.limit) ∧
      (dictLookup (wrapperCall m e rpm now fres).1.1 "message").isSome = true) ∧
    ((checkLimit m e rpm 1 now).1.1 = true →
      (wrapperCall m e rpm now fres).1.2 = true ∧
      (∀ d, fres = RVal.dict d → lookupR d "error" = none →
        (wrapperCall m e rpm now fres).1.1 = RVal.dict (setKey d "rate_limit"
          (.dict [("remaining", .int (checkLimit m e rpm 1 now).1.2.remaining),
                  ("limit", .int (checkLimit m e rpm 1 now).1.2.limit),
                  ("reset_time", .rat (checkLimit m e rpm 1 now).1.2.reset_time)]))) ∧
      (∀ d, fres = RVal.dict d → (lookupR d "error").isSome = true →
        (wrapperCall m e rpm now fres).1.1 = fres) ∧
      (isDict fres = false → (wrapperCall m e rpm now fres).1.1 = fres)) := by
  rcases hcl : checkLimit m e rpm 1 now with ⟨⟨al, info⟩, m2⟩
  unfold wrapperCall
  rw [hcl]
  cases al with
  | false =>
      constructor
      · intro _
        refine ⟨rfl, rfl, ?_, ?_, ?_, ?_, ?_⟩ <;> simp [dictLookup, lookupR]
      · intro ht
        simp at ht
  | true =>
      constructor
      · intro hf
        simp at hf
      · intro _
        refine ⟨rfl, ?_, ?_, ?_⟩
        · intro d hd herr
          subst hd
          simp [herr]
        · intro d hd herr
          subst hd
          obtain ⟨v, hv⟩ := Option.isSome_iff_exists.mp herr
          simp [hv]
        · intro hnd
          cases fres with
          | dict d => simp [isDict] at hnd
          | str s => rfl
          | int n => rfl
          | rat q => rfl

/-- Witness for `wrapper_contract`: the denial branch on an exhausted
bucket (the wrapped function is not invoked). -/
theorem wrapper_contract_witness :
    (checkLimit [("w", ⟨5, 0, 1, 0⟩)] "w" none 1 0).1.1 = false ∧
    ((wrapperCall [("w", ⟨5, 0, 1, 0⟩)] "w" none 0 (.dict [("data", .int 1)])).1.2 = false ∧
      isDict (wrapperCall [("w", ⟨5, 0, 1, 0⟩)] "w" none 0 (.dict [("data", .int 1)])).1.1 = true ∧
      dictLookup (wrapperCall [("w", ⟨5, 0, 1, 0⟩)] "w" none 0
          (.dict [("data", .int 1)])).1.1 "error_type" = some (.str "rate_limit_exceeded") ∧
      dictLookup (wrapperCall [("w", ⟨5, 0, 1, 0⟩)] "w" none 0
          (.dict [("data", .int 1)])).1.1 "retry_after" =
        some (.int ((checkLimit [("w", ⟨5, 0, 1, 0⟩)] "w" none 1 0).1.2.retry_after.getD 60)) ∧
      dictLookup (wrapperCall [("w", ⟨5, 0, 1, 0⟩)] "w" none 0
          (.dict [("data", .int 1)])).1.1 "reset_time" =
        some (.rat (checkLimit [("w", ⟨5, 0, 1, 0⟩)] "w" none 1 0).1.2.reset_time) ∧
      dictLookup (wrapperCall [("w", ⟨5, 0, 1, 0⟩)] "w" none 0
          (.dict [("data", .int 1)])).1.1 "limit" =
        some (.int (checkLimit [("w", ⟨5, 0, 1, 0⟩)] "w" none 1 0).1.2.limit) ∧
      (dictLookup (wrapperCall [("w", ⟨5, 0, 1, 0⟩)] "w" none 0
          (.dict [("data", .int 1)])).1.1 "message").isSome = true) := by
  have hden : (checkLimit [("w", ⟨5, 0, 1, 0⟩)] "w" none 1 0).1.1 = false := by
    norm_num [checkLimit, getBucket, lookupBucket, TokenBucket.consume,
      TokenBucket.refill]
  exact ⟨hden,
    (wrapper_contract [("w", ⟨5, 0, 1, 0⟩)] "w" none 0 (.dict [("data", .int 1)])).1 hden⟩

/-- Looking up any key in a map whose entries were all refilled gives
the refilled bucket. -/
lemma lookup_map_refill (m : BucketMap) (now : ℚ) (e' : String) :
    lookupBucket (m.map fun p => (p.1, refillFull p.2 now)) e' =
      (lookupBucket m e').map (fun b => refillFull b now) := by
  induction m with
  | nil => rfl
  | cons hd tl ih =>
      obtain ⟨k, b⟩ := hd
      by_cases hk : k = e'
      · simp [lookupBucket, hk]
      · simp [lookupBucket, hk, ih]

/-- Storing a bucket under key `e` makes `e` look up to it. -/
lemma lookup_store_same (m : BucketMap) (e : String) (b : TokenBucket) :
    lookupBucket (storeBucket m e b) e = some b := by
  induction m with
  | nil => simp [storeBucket, lookupBucket]
  | cons hd tl ih =>
      obtain ⟨k, b0⟩ := hd
      by_cases hk : k = e
      · subst hk
        simp [storeBucket, lookupBucket]
      · simp [storeBucket, lookupBucket, hk, ih]

/-- Storing a bucket under key `e` leaves every other key's lookup
unchanged. -/
lemma lookup_store_other (m : BucketMap) (e e' : String) (b : TokenBucket)
    (hne : e' ≠ e) :
    lookupBucket (storeBucket m e b) e' = lookupBucket m e' := by
  have hne2 : ¬ e = e' := fun h => hne h.symm
  induction m with
  | nil => simp [storeBucket, lookupBucket, hne2]
  | cons hd tl ih =>
      obtain ⟨k, b0⟩ := hd
      by_cases hk : k = e
      · simp [storeBucket, lookupBucket, hk, hne2]
      · by_cases hk' : k = e'
        · simp [storeBucket, lookupBucket, hk, hk', hne, ih]
        · simp [storeBucket, lookupBucket, hk, hk', ih]

/-- C8 counterexample: endpoint `""` can hold a bucket, and
`reset("")` falls into Python's falsy branch, refilling **every**
bucket: after `reset("")` the unrelated endpoint "Y" (partially
consumed, tokens 4 of 10) is refilled to 10 — not left unchanged as the
claim requires. -/
theorem reset_empty_string_cex :
    lookupBucket (reset [("", ⟨10, 3, 1, 0⟩), ("Y", ⟨10, 4, 1, 0⟩)] (some "") 5) "Y" =
      some ⟨10, 10, 1, 5⟩ ∧
    lookupBucket [("", ⟨10, 3, 1, 0⟩), ("Y", ⟨10, 4, 1, 0⟩)] "Y" = some ⟨10, 4, 1, 0⟩ ∧
    (⟨10, 10, 1, 5⟩ : TokenBucket) ≠ ⟨10, 4, 1, 0⟩ := by
  refine ⟨?_, ?_, ?_⟩
  · simp [reset, refillFull, lookupBucket]
  · simp [lookupBucket]
  · simp only [ne_eq, TokenBucket.mk.injEq, not_and]
    intro _ h
    norm_num at h

/-- C8 amended: for every existing bucket keyed by a **non-empty**
endpoint, `reset(endpoint)` sets that bucket's tokens to its capacity
and `last_refill` to now while leaving capacity and rate unchanged,
leaves every other bucket unchanged, and removes no bucket;
`reset()` with no argument refills every bucket — and so does
`reset("")`, because Python's `if endpoint:` treats the empty string
like `None`. -/
theorem reset_spec_amended (m : BucketMap) (e : String) (now : ℚ) (he : e ≠ "") :
    (lookupBucket (reset m (some e) now) e =
      (lookupBucket m e).map (fun b => refillFull b now)) ∧
    (∀ e', e' ≠ e → lookupBucket (reset m (some e) now) e' = lookupBucket m e') ∧
    (∀ e', lookupBucket (reset m none now) e' =
      (lookupBucket m e').map (fun b => refillFull b now)) ∧
    (∀ e', lookupBucket (reset m (some "") now) e' =
      (lookupBucket m e').map (fun b => refillFull b now)) := by
  refine ⟨?_, ?_, ?_, ?_⟩
  · rw [reset, if_pos he]
    cases hlk : lookupBucket m e with
    | none => simp [hlk]
    | some b => simp [hlk, lookup_store_same]
  · intro e' hne
    rw [reset, if_pos he]
    cases hlk : lookupBucket m e with
    | none => rfl
    | some b => exact lookup_store_other m e e' (refillFull b now) hne
  · intro e'
    exact lookup_map_refill m now e'
  · intro e'
    rw [reset, if_neg (by simp)]
    exact lookup_map_refill m now e'

/-- Witness for `reset_spec_amended` on a concrete two-endpoint map. -/
theorem reset_spec_amended_witness :
    ("A" : String) ≠ "" ∧
    lookupBucket (reset [("A", ⟨10, 2, 1, 0⟩), ("B", ⟨20, 5, 1, 0⟩)] (some "A") 9) "A" =
      (lookupBucket [("A", ⟨10, 2, 1, 0⟩), ("B", ⟨20, 5, 1, 0⟩)] "A").map
        (fun b => refillFull b 9) ∧
    lookupBucket (reset [("A", ⟨10, 2, 1, 0⟩), ("B", ⟨20, 5, 1, 0⟩)] (some "A") 9) "B" =
      lookupBucket [("A", ⟨10, 2, 1, 0⟩), ("B", ⟨20, 5, 1, 0⟩)] "B" := by
  have he : ("A" : String) ≠ "" := by decide
  exact ⟨he,
    (reset_spec_amended [("A", ⟨10, 2, 1, 0⟩), ("B", ⟨20, 5, 1, 0⟩)] "A" 9 he).1,
    (reset_spec_amended [("A", ⟨10, 2, 1, 0⟩), ("B", ⟨20, 5, 1, 0⟩)] "A" 9 he).2.1 "B"
      (by decide)⟩

/-- C10 counterexample: `reset(e)` for an endpoint with no bucket is
*not* always a no-op: for `e = ""` (no bucket stored under `""`),
Python's `if endpoint:` is false and the reset-all branch runs,
refilling the unrelated existing bucket "X" from 3 tokens back to 10
and moving its `last_refill`. -/
theorem reset_missing_empty_cex :
    lookupBucket [("X", (⟨10, 3, 1, 0⟩ : TokenBucket))] "" = none ∧
    lookupBucket (reset [("X", ⟨10, 3, 1, 0⟩)] (some "") 7) "X" = some ⟨10, 10, 1, 7⟩ ∧
    (⟨10, 10, 1, 7⟩ : TokenBucket) ≠ ⟨10, 3, 1, 0⟩ := by
  refine ⟨?_, ?_, ?_⟩
  · simp [lookupBucket]
  · simp [reset, refillFull, lookupBucket]
  · simp only [ne_eq, TokenBucket.mk.injEq, not_and]
    intro _ h
    norm_num at h

/-- C10 amended: for every **non-empty** endpoint `e` with no bucket in
the map, `reset(e)` is a silent no-op — the map is returned exactly as
it was (no error, no bucket created, nothing mutated).  For the empty
string the truthiness test fails and `reset("")` instead behaves
exactly like `reset()` with no argument (refills every existing
bucket). -/
theorem reset_missing_noop_amended (m : BucketMap) (e : String) (now : ℚ)
    (he : e ≠ "") (habs : lookupBucket m e = none) :
    reset m (some e) now = m ∧ reset m (some "") now = reset m none now := by
  constructor
  · rw [reset, if_pos he, habs]
  · rw [reset, if_neg (by simp), reset]

/-- Witness for `reset_missing_noop_amended`. -/
theorem reset_missing_noop_amended_witness :
    (("Z" : String) ≠ "" ∧
      lookupBucket [("X", (⟨10, 3, 1, 0⟩ : TokenBucket))] "Z" = none) ∧
    (reset [("X", (⟨10, 3, 1, 0⟩ : TokenBucket))] (some "Z") 4 = [("X", ⟨10, 3, 1, 0⟩)] ∧
      reset [("X", (⟨10, 3, 1, 0⟩ : TokenBucket))] (some "") 4 =
        reset [("X", (⟨10, 3, 1, 0⟩ : TokenBucket))] none 4) := by
  have he : ("Z" : String) ≠ "" := by decide
  have habs : lookupBucket [("X", (⟨10, 3, 1, 0⟩ : TokenBucket))] "Z" = none := by
    simp [lookupBucket]
  exact ⟨⟨he, habs⟩,
    reset_missing_noop_amended [("X", ⟨10, 3, 1, 0⟩)] "Z" 4 he habs⟩

end GovUkMcp
